import Mathlib

/-!
Verification of the filter-string parser of `mlflow_faculty` (file
`mlflow_faculty/filter.py`).

The parser consumes token trees produced by the third-party `sqlparse`
tokenizer.  We embed the interface the code consumes: a `Token` is either a
plain token carrying a `ttype` classification and its raw text, or a grouped
token (identifier, comparison, parenthesis) carrying child tokens.  The parse
functions are translated from `filter.py` over this token type.  Exceptions
are modelled with `Except Err`; Python's `ValueError` is `Err.valueError` with
the message built as in the source, and the `MatchesNothing` exception class is
`Err.matchesNothing`.

Recursion in `_parse_token_list` is on sub-lists obtained by splitting on
keyword tokens and on children of grouped tokens.  We give the function a
fuel parameter bounded by the total token size (`parseTokenListF`) so it is
structurally recursive and computable, and define `parseTokenList` as the
instance with sufficient fuel; `parseTokenList_eq` recovers the source's
self-referential equation, and fuel adequacy is proved (`parseTokenListF_eq`).
-/

namespace MlflowFaculty

/-! ### Python string primitives used by the source -/

/-- Quote characters, written by code point to keep the development plain. -/
def dquoteChar : Char := Char.ofNat 34

def squoteChar : Char := Char.ofNat 39

def btickChar : Char := Char.ofNat 96

def braceOpenChar : Char := Char.ofNat 123

def braceCloseChar : Char := Char.ofNat 125

/-- Python `str.upper` (ASCII fragment, which covers the SQL keywords). -/
def pyUpper (s : String) : String := String.mk (s.data.map Char.toUpper)

/-- Python `str.lower` (ASCII fragment). -/
def pyLower (s : String) : String := String.mk (s.data.map Char.toLower)

/-- Python `str.capitalize`: first character upper-cased, the rest lower-cased. -/
def pyCapitalize (s : String) : String :=
  match s.data with
  | [] => ""
  | c :: cs => String.mk (Char.toUpper c :: cs.map Char.toLower)

/-- Python `repr` of a string as used in `"{!r}".format(...)`: the text wrapped
in single quotes (escaping of special characters inside is not modelled; the
claims only need that the message embeds the offending text). -/
def pyRepr (s : String) : String := "\x27" ++ s ++ "\x27"

/-- Python `str.strip()` with no argument: whitespace removed at both ends
(the space/tab/newline/return characters; Python's further whitespace
characters are not modelled). -/
def pyStrip (s : String) : String :=
  String.mk (((s.data.dropWhile Char.isWhitespace).reverse.dropWhile
    Char.isWhitespace).reverse)

/-- Python `str.strip(chars)`: remove any of `cs` from both ends. -/
def pyStripChars (s : String) (cs : List Char) : String :=
  String.mk ((((s.data.dropWhile (fun c => cs.contains c)).reverse.dropWhile
    (fun c => cs.contains c)).reverse))

/-! ### Domain enumerations

`ComparisonOperator`, `LogicalOperator`, `ExperimentRunStatus` and the filter
classes come from the `faculty.clients.experiment` client library, which is a
dependency of this repository.  Modelled from the spec: the comparison
operators (§3 "Comparison Operator"), the logical operators, and the run
status literals `running, finished, failed, scheduled, killed` (§4.1c). -/

inductive ComparisonOperator where
  | defined
  | equalTo
  | notEqualTo
  | greaterThan
  | greaterThanOrEqualTo
  | lessThan
  | lessThanOrEqualTo
deriving DecidableEq, Repr

inductive LogicalOperator where
  | land
  | lor
deriving DecidableEq, Repr

inductive ExperimentRunStatus where
  | running
  | finished
  | failed
  | scheduled
  | killed
deriving DecidableEq, Repr

/-- The `value` of each status member of the Python enum. -/
def ExperimentRunStatus.value : ExperimentRunStatus → String
  | .running => "running"
  | .finished => "finished"
  | .failed => "failed"
  | .scheduled => "scheduled"
  | .killed => "killed"

/-- `ExperimentRunStatus(s)`: look a member up by value, `ValueError` if none. -/
def experimentRunStatusOfValue (s : String) : Option ExperimentRunStatus :=
  if s = "running" then some .running
  else if s = "finished" then some .finished
  else if s = "failed" then some .failed
  else if s = "scheduled" then some .scheduled
  else if s = "killed" then some .killed
  else none

/-- `_KeyType` from `filter.py`, with each member's `value` string. -/
inductive KeyType where
  | runId
  | status
  | param
  | metric
  | tag
deriving DecidableEq, Repr

def KeyType.value : KeyType → String
  | .runId => "run ID"
  | .status => "status"
  | .param => "parameter"
  | .metric => "metric"
  | .tag => "tag"

/-! ### Values and filter trees -/

/-- The value slot of a leaf filter.  Booleans come from `IS [NOT] NULL`;
integer and float literals keep their raw literal text (the claims only
distinguish the kind of number, so `int()`/`float()` conversion of the digits
is not re-modelled); UUIDs are kept as their canonical 32-hex-digit string. -/
inductive Value where
  | boolV (b : Bool)
  | intV (raw : String)
  | floatV (raw : String)
  | strV (s : String)
  | uuidV (hex : String)
  | statusV (st : ExperimentRunStatus)
deriving DecidableEq, Repr

/-- Whether the value is a Python `str` (`isinstance(value, six.string_types)`):
of the types `_parse_value` can produce, only quoted-string extraction results
are strings. -/
def Value.isStringValue : Value → Bool
  | .strV _ => true
  | _ => false

/-- The filter classes of the faculty experiment client that this code
constructs.  Modelled from the spec (§3 "Filter Node"), plus the
`ExperimentIdFilter`/`DeletedAtFilter` leaves used by the caller-side builder.
`key` is `Option String` because `_parse_identifier` returns `None` for the
attribute key types. -/
inductive Filter where
  | runIdFilter (op : ComparisonOperator) (v : Value)
  | runStatusFilter (op : ComparisonOperator) (v : Value)
  | paramFilter (key : Option String) (op : ComparisonOperator) (v : Value)
  | metricFilter (key : Option String) (op : ComparisonOperator) (v : Value)
  | tagFilter (key : Option String) (op : ComparisonOperator) (v : Value)
  | experimentIdFilter (op : ComparisonOperator) (id : Int)
  | deletedAtFilter (op : ComparisonOperator) (b : Bool)
  | compoundFilter (lop : LogicalOperator) (children : List Filter)
deriving Repr

/-- Exceptions raised by `filter.py`: `ValueError` with a message, and the
`MatchesNothing` signal class. -/
inductive Err where
  | valueError (msg : String)
  | matchesNothing
deriving DecidableEq, Repr

/-! ### The sqlparse token interface -/

/-- The `ttype` classifications `filter.py` inspects: `Token.Keyword`,
`Token.Operator.Comparison`, `Token.Literal.Number.Integer`,
`Token.Literal.Number.Float`, `Token.Literal.String.Single`, whitespace,
names and punctuation; `otherT` stands for any further ttype.
(`Number.Hexadecimal` literals are not modelled.) -/
inductive TType where
  | keyword
  | comparisonOp
  | numberInteger
  | numberFloat
  | stringSingle
  | whitespaceT
  | nameT
  | punctuation
  | otherT
deriving DecidableEq, Repr

/-- The grouped-token classes `filter.py` inspects via `isinstance`. -/
inductive GroupKind where
  | identifierG
  | comparisonG
  | parenthesisG
deriving DecidableEq, Repr

inductive Token where
  | tok (ttype : TType) (value : String)
  | group (kind : GroupKind) (tokens : List Token)
deriving Repr

mutual

/-- `token.value`: for a group, the concatenation of the children's values
(sqlparse's `TokenList.__str__`). -/
def Token.value : Token → String
  | .tok _ v => v
  | .group _ ts => Token.valueList ts

def Token.valueList : List Token → String
  | [] => ""
  | t :: ts => t.value ++ Token.valueList ts

end

/-- `token.is_whitespace`: the ttype is in the `Whitespace` hierarchy. -/
def Token.isWhitespace : Token → Bool
  | .tok .whitespaceT _ => true
  | _ => false

/-- `token.is_keyword`: the ttype is in the `Keyword` hierarchy. -/
def Token.isKeyword : Token → Bool
  | .tok .keyword _ => true
  | _ => false

/-- `token.normalized`: keywords are upper-cased, others keep their value. -/
def Token.normalized (t : Token) : String :=
  if t.isKeyword then pyUpper t.value else t.value

/-- `token.match(ttype=Keyword, values=[v])` for a plain (non-regex) value:
the ttype must be `Keyword` and the upper-cased value must equal `v`
upper-cased (sqlparse upper-cases the candidate values for keywords and
compares with `normalized`). -/
def Token.matchKeyword (t : Token) (v : String) : Bool :=
  t.isKeyword && (t.normalized == pyUpper v)

def isAnd (t : Token) : Bool := t.matchKeyword "AND"

def isOr (t : Token) : Bool := t.matchKeyword "OR"

/-! `token.match(ttype=Keyword, values=["NOT +NULL"], regex=True)` does
`re.search` of the pattern `NOT +NULL` (one or more space characters) over
`token.normalized`.  We implement that search over the character list. -/

def startsNull : List Char → Bool
  | c1 :: c2 :: c3 :: c4 :: _ => c1 == 'N' && c2 == 'U' && c3 == 'L' && c4 == 'L'
  | _ => false

/-- One or more spaces, then `NULL`. -/
def spacesThenNull : List Char → Bool
  | [] => false
  | c :: rest => c == ' ' && (startsNull rest || spacesThenNull rest)

/-- The pattern `NOT +NULL` matches at the head of the character list. -/
def notNullAt : List Char → Bool
  | c1 :: c2 :: c3 :: rest => c1 == 'N' && c2 == 'O' && c3 == 'T' && spacesThenNull rest
  | _ => false

/-- `re.search("NOT +NULL", s)`: the pattern matches at some position. -/
def searchNotNull : List Char → Bool
  | [] => false
  | c :: cs => notNullAt (c :: cs) || searchNotNull cs

/-- `token.match(ttype=Keyword, values=["NOT +NULL"], regex=True)`. -/
def Token.matchNotNullKeyword (t : Token) : Bool :=
  t.isKeyword && searchNotNull t.normalized.data

/-! ### Fixed tables from `filter.py` -/

def INVALID_IDENTIFIER_TPL (v : String) : String :=
  "Invalid identifier " ++ pyRepr v ++ ". Expected identifier of format " ++
    "\x27attribute.run_id\x27, \x27attribute.status\x27, \x27metric.<key>\x27, " ++
    "\x27tag.<key>\x27, or \x27params.<key>\x27."

def INVALID_OPERATOR_TPL (v : String) : String :=
  pyRepr v ++ " is not a valid operator."

def INVALID_VALUE_TPL (expected : String) (found : String) : String :=
  "Expected " ++ expected ++ " but found " ++ pyRepr found

def ATTRIBUTE_IDENTIFIERS : List String := ["attribute", "attributes", "attr", "run"]

def RUN_ID_IDENTIFIERS : List String := ["id", "run_id"]

def PARAM_IDENTIFIERS : List String := ["param", "params", "parameter", "parameters"]

def METRIC_IDENTIFIERS : List String := ["metric", "metrics"]

def TAG_IDENTIFIERS : List String := ["tag", "tags"]

def COMPARISON_OPERATOR_MAPPING (s : String) : Option ComparisonOperator :=
  if s = "=" then some .equalTo
  else if s = "!=" then some .notEqualTo
  else if s = ">" then some .greaterThan
  else if s = ">=" then some .greaterThanOrEqualTo
  else if s = "<" then some .lessThan
  else if s = "<=" then some .lessThanOrEqualTo
  else none

def DISCRETE_KEY_TYPES : List KeyType := [.runId, .status, .tag]

def DISCRETE_OPERATORS : List ComparisonOperator := [.defined, .equalTo, .notEqualTo]

/-- The ordering operators: the comparison operators outside
`DISCRETE_OPERATORS`. -/
def ORDERING_OPERATORS : List ComparisonOperator :=
  [.greaterThan, .greaterThanOrEqualTo, .lessThan, .lessThanOrEqualTo]

/-! ### Quote stripping and identifier parsing -/

/-- `_is_quoted(value, quote)`: length at least 2 and the first and last
characters are the quote. -/
def isQuoted (value : String) (quote : Char) : Bool :=
  decide (2 ≤ value.data.length) && value.data.head? == some quote &&
    value.data.getLast? == some quote

/-- The text Python inserts for `set(quotes)` in the require-quotes error
message (Python set iteration order is unspecified; we fix insertion order). -/
def quoteSetText (quotes : List Char) : String :=
  "\x7b" ++ String.intercalate ", " (quotes.map (fun c => pyRepr (String.mk [c]))) ++ "\x7d"

/-- `_strip_quotes(value, quotes, require_quotes)`. -/
def stripQuotes (value : String) (quotes : List Char) (requireQuotes : Bool) :
    Except Err String :=
  match quotes.find? (fun c => isQuoted value c) with
  | some _ => .ok (String.mk ((value.data.drop 1).dropLast))
  | none =>
    if requireQuotes then
      .error (.valueError
        (INVALID_VALUE_TPL ("a string quoted with one of " ++ quoteSetText quotes) value))
    else
      .ok value

/-- Python `value.split(".", 1)` destructured into exactly two parts: split at
the first dot, `none` when there is no dot (the unpacking `ValueError`). -/
def splitFirstDotChars : List Char → Option (List Char × List Char)
  | [] => none
  | c :: cs =>
    if c = '.' then some ([], cs)
    else
      match splitFirstDotChars cs with
      | some (l, r) => some (c :: l, r)
      | none => none

def splitFirstDot (s : String) : Option (String × String) :=
  match splitFirstDotChars s.data with
  | some (l, r) => some (String.mk l, String.mk r)
  | none => none

/-- `_parse_identifier`. -/
def parseIdentifier (token : Token) : Except Err (KeyType × Option String) :=
  match token with
  | .group .identifierG _ =>
    match splitFirstDot token.value with
    | none => .error (.valueError (INVALID_IDENTIFIER_TPL token.value))
    | some (keyTypeString, key0) =>
      match stripQuotes key0 [dquoteChar, btickChar] false with
      | .error e => .error e
      | .ok key =>
        if ATTRIBUTE_IDENTIFIERS.contains keyTypeString then
          if RUN_ID_IDENTIFIERS.contains key then .ok (.runId, none)
          else if key = "status" then .ok (.status, none)
          else .error (.valueError (INVALID_IDENTIFIER_TPL token.value))
        else if PARAM_IDENTIFIERS.contains keyTypeString then .ok (.param, some key)
        else if METRIC_IDENTIFIERS.contains keyTypeString then .ok (.metric, some key)
        else if TAG_IDENTIFIERS.contains keyTypeString then .ok (.tag, some key)
        else .error (.valueError (INVALID_IDENTIFIER_TPL token.value))
  | _ => .error (.valueError (INVALID_IDENTIFIER_TPL token.value))

/-- `_parse_operator`. -/
def parseOperator (token : Token) : Except Err ComparisonOperator :=
  if token.matchKeyword "IS" then .ok .defined
  else
    match token with
    | .tok .comparisonOp v =>
      match COMPARISON_OPERATOR_MAPPING v with
      | some op => .ok op
      | none => .error (.valueError (INVALID_OPERATOR_TPL v))
    | t => .error (.valueError (INVALID_OPERATOR_TPL t.value))

/-! ### Value extraction -/

/-- `_extract_defined`. -/
def extractDefined (token : Token) : Except Err Value :=
  if token.matchKeyword "NULL" then .ok (.boolV false)
  else if token.matchNotNullKeyword then .ok (.boolV true)
  else .error (.valueError (INVALID_VALUE_TPL "NULL or NOT NULL" token.value))

/-- `_extract_number`. -/
def extractNumber (token : Token) : Except Err Value :=
  match token with
  | .tok .numberInteger v => .ok (.intV v)
  | .tok .numberFloat v => .ok (.floatV v)
  | t => .error (.valueError (INVALID_VALUE_TPL "a number" t.value))

/-- The condition of `_extract_string`: a single-quoted string literal or an
`Identifier` group (which is how double-quoted and backtick-quoted text
arrives from sqlparse). -/
def isStringLike : Token → Bool
  | .tok .stringSingle _ => true
  | .group .identifierG _ => true
  | _ => false

/-- `_extract_string`. -/
def extractString (token : Token) : Except Err String :=
  if isStringLike token then
    stripQuotes token.value [dquoteChar, squoteChar] true
  else
    .error (.valueError
      (INVALID_VALUE_TPL ("a quoted string (e.g. \x27my-value\x27)") token.value))

/-- `_extract_number_or_string`: number takes priority, then quoted string,
else the combined error (both helpers only raise `ValueError`, which is what
the `except ValueError` clauses catch). -/
def extractNumberOrString (token : Token) : Except Err Value :=
  match extractNumber token with
  | .ok v => .ok v
  | .error _ =>
    match extractString token with
    | .ok s => .ok (.strV s)
    | .error _ =>
      .error (.valueError (INVALID_VALUE_TPL "a number or quoted string" token.value))

/-- Hex digits accepted by Python `int(s, 16)` (digit grouping underscores are
not modelled). -/
def isHexDigitPy (c : Char) : Bool :=
  c.isDigit || ('a' ≤ c && c ≤ 'f') || ('A' ≤ c && c ≤ 'F')

/-- Python `uuid.UUID(hex)` normalisation: drop `urn:` and `uuid:` markers,
strip surrounding braces, remove hyphens, require 32 hex digits; the result is
canonicalised to lower case (UUIDs compare by their 128-bit value). -/
def uuidParse (s : String) : Option String :=
  let h := (s.replace "urn:" "").replace "uuid:" ""
  let h := pyStripChars h [braceOpenChar, braceCloseChar]
  let h := h.replace "-" ""
  if h.data.length = 32 && h.data.all isHexDigitPy then some (pyLower h) else none

/-- The text Python inserts for the set of valid statuses in the status error
message (set iteration order fixed arbitrarily). -/
def validStatusSetText : String :=
  "\x7b" ++ String.intercalate ", " (["RUNNING", "FINISHED", "FAILED", "SCHEDULED",
    "KILLED"].map pyRepr) ++ "\x7d"

/-- `_parse_value`. -/
def parseValue (keyType : KeyType) (operator : ComparisonOperator) (valueToken : Token) :
    Except Err Value :=
  if operator = .defined then extractDefined valueToken
  else
    match keyType with
    | .runId =>
      match extractString valueToken with
      | .error e => .error e
      | .ok valueString =>
        match uuidParse valueString with
        | some hex => .ok (.uuidV hex)
        | none => .error (.valueError (INVALID_VALUE_TPL "a UUID" valueString))
    | .status =>
      match extractString valueToken with
      | .error e => .error e
      | .ok valueString =>
        match experimentRunStatusOfValue (pyLower valueString) with
        | some st => .ok (.statusV st)
        | none =>
          .error (.valueError (INVALID_VALUE_TPL
            ("a run status (one of " ++ validStatusSetText ++ ")") valueString))
    | .param => extractNumberOrString valueToken
    | .metric => extractNumber valueToken
    | .tag =>
      match extractString valueToken with
      | .error e => .error e
      | .ok s => .ok (.strV s)

/-- `_validate_operator`. -/
def validateOperator (keyType : KeyType) (operator : ComparisonOperator) (value : Value) :
    Except Err Unit :=
  if DISCRETE_KEY_TYPES.contains keyType then
    if !(DISCRETE_OPERATORS.contains operator) then
      .error (.valueError (pyCapitalize keyType.value ++
        " filters can only be used with operators \x27=\x27, \x27!=\x27 and \x27IS NULL\x27"))
    else .ok ()
  else if keyType = .param && value.isStringValue then
    if !(DISCRETE_OPERATORS.contains operator) then
      .error (.valueError ("Param filters with string values can only be used with " ++
        "operators \x27=\x27, \x27!=\x27 and \x27IS NULL\x27"))
    else .ok ()
  else .ok ()

/-- `_single_filter_from_tokens`. -/
def singleFilterFromTokens (identifierToken operatorToken valueToken : Token) :
    Except Err Filter := do
  let (keyType, key) ← parseIdentifier identifierToken
  let operator ← parseOperator operatorToken
  let value ← parseValue keyType operator valueToken
  let _ ← validateOperator keyType operator value
  match keyType with
  | .runId => pure (.runIdFilter operator value)
  | .status => pure (.runStatusFilter operator value)
  | .param => pure (.paramFilter key operator value)
  | .metric => pure (.metricFilter key operator value)
  | .tag => pure (.tagFilter key operator value)

/-! ### The recursive-descent parse over token lists -/

/-- `_split_list(source_list, condition)`: split the list at each match,
dropping the matching elements; always yields at least one (possibly empty)
chunk. -/
def splitList (p : Token → Bool) : List Token → List (List Token)
  | [] => [[]]
  | t :: ts =>
    if p t then [] :: splitList p ts
    else
      match splitList p ts with
      | [] => [[t]]
      | c :: cs => (t :: c) :: cs

/-- The loop `for part in _split_list(...): filters.append(_parse_token_list(part))`
with a given parse function for the parts. -/
def parsePartsWith (f : List Token → Except Err Filter) :
    List (List Token) → Except Err (List Filter)
  | [] => pure []
  | c :: cs => do
    let x ← f c
    let xs ← parsePartsWith f cs
    pure (x :: xs)

mutual

/-- Total size of a token tree: one per token plus the sizes of group
children.  Used only to bound the recursion depth of `_parse_token_list`. -/
def Token.size : Token → Nat
  | .tok _ _ => 1
  | .group _ ts => 1 + Token.sizeList ts

def Token.sizeList : List Token → Nat
  | [] => 0
  | t :: ts => t.size + Token.sizeList ts

end

/-- `_parse_token_list`, with a fuel parameter so the recursion is structural.
Any fuel exceeding `Token.sizeList tokens` is enough (`parseTokenListF_eq`
below), so the fuel-exhaustion branch is unreachable from `parseTokenList`. -/
def parseTokenListF : Nat → List Token → Except Err Filter
  | 0, _ => .error (.valueError "recursion limit exceeded")
  | n + 1, tokens =>
    let ts := tokens.filter (fun t => !t.isWhitespace)
    if ts.any isOr then do
      let filters ← parsePartsWith (parseTokenListF n) (splitList isOr ts)
      pure (.compoundFilter .lor filters)
    else if ts.any isAnd then do
      let filters ← parsePartsWith (parseTokenListF n) (splitList isAnd ts)
      pure (.compoundFilter .land filters)
    else
      match ts with
      | [Token.group .parenthesisG gts] => parseTokenListF n ((gts.drop 1).dropLast)
      | [Token.group .comparisonG gts] => parseTokenListF n gts
      | [t] =>
        .error (.valueError ("Unsupported filter string component: " ++ pyRepr t.normalized))
      | [t1, t2, t3] => singleFilterFromTokens t1 t2 t3
      | _ =>
        .error (.valueError ("Unsupported filter string component: " ++
          pyRepr (String.intercalate " " (ts.map Token.normalized))))

/-- `_parse_token_list`. -/
def parseTokenList (tokens : List Token) : Except Err Filter :=
  parseTokenListF (Token.sizeList tokens + 1) tokens

/-- The result of `sqlparse.parse(text)`: either an exception from the
tokenizer, or the sequence of parsed statements, each a token list. -/
inductive SqlParseResult where
  | failure
  | statements (stmts : List (List Token))

/-- `_parse_filter_string`.  `parsed` stands for the result of
`sqlparse.parse(mlflow_filter_string)`; sqlparse returns `Statement` objects,
so the source's `isinstance(statement, SqlStatement)` guard cannot fire and is
absorbed into the single-statement match. -/
def parseFilterString (mlflowFilterString : String) (parsed : SqlParseResult) :
    Except Err Filter :=
  match parsed with
  | .failure =>
    .error (.valueError ("Error parsing filter \x27" ++ mlflowFilterString ++ "\x27"))
  | .statements [statement] => parseTokenList statement
  | .statements _ =>
    .error (.valueError ("Invalid filter \x27" ++ mlflowFilterString ++
      "\x27. Must be a single statement."))

/-! ### The caller-side builders -/

/-- `_filter_by_experiment_id` (the `int(experiment_id)` coercion of string
IDs is not re-modelled: IDs arrive as integers). -/
def filterByExperimentId (experimentIds : List Int) : Except Err Filter :=
  if experimentIds.length = 0 then .error .matchesNothing
  else
    let parts := experimentIds.map (fun i => Filter.experimentIdFilter .equalTo i)
    match parts with
    | [part] => .ok part
    | _ => .ok (.compoundFilter .lor parts)

/-- The constants of `mlflow.entities.ViewType`. -/
def ViewTypeACTIVE_ONLY : Nat := 1

def ViewTypeDELETED_ONLY : Nat := 2

def ViewTypeALL : Nat := 3

/-- `_filter_by_mlflow_view_type`. -/
def filterByMlflowViewType (viewType : Nat) : Except Err (Option Filter) :=
  if viewType = ViewTypeACTIVE_ONLY then .ok (some (.deletedAtFilter .defined false))
  else if viewType = ViewTypeDELETED_ONLY then .ok (some (.deletedAtFilter .defined true))
  else if viewType = ViewTypeALL then .ok none
  else .error (.valueError ("Invalid ViewType: " ++ toString viewType))

/-- `build_search_runs_filter`.  `parsed` stands for the result of
`sqlparse.parse(filter_string)` when a filter string is parsed.  The
`filter_parts` list is accumulated through the bind chain: `parts1` after the
experiment-ID step, `parts2` after the view-type step, `parts3` after the
filter-string step. -/
def buildSearchRunsFilter (experimentIds : Option (List Int))
    (filterString : Option String) (viewType : Nat) (parsed : SqlParseResult) :
    Except Err (Option Filter) :=
  (match experimentIds with
   | none => pure []
   | some ids => (filterByExperimentId ids) >>= fun f => pure [f]) >>= fun parts1 =>
  filterByMlflowViewType viewType >>= fun deletedAtFilter =>
  (let parts2 : List Filter :=
    match deletedAtFilter with
    | none => parts1
    | some f => parts1 ++ [f]
  (match filterString with
   | none => pure parts2
   | some fs =>
     if pyStrip fs ≠ "" then
       (parseFilterString fs parsed) >>= fun f => pure (parts2 ++ [f])
     else pure parts2) >>= fun parts3 =>
  match parts3 with
  | [] => pure none
  | [part] => pure (some part)
  | _ => pure (some (.compoundFilter .land parts3)))

/-! ### Auxiliary definitions for the verification -/

/-- Total size of the chunks produced by a split. -/
def chunksSize (css : List (List Token)) : Nat :=
  (css.map Token.sizeList).sum

mutual

/-- The spec's compound invariant: every `CompoundFilter` in the tree has at
least two children. -/
def Filter.compoundOK : Filter → Bool
  | .compoundFilter _ cs => decide (2 ≤ cs.length) && Filter.compoundOKList cs
  | _ => true

def Filter.compoundOKList : List Filter → Bool
  | [] => true
  | f :: fs => f.compoundOK && Filter.compoundOKList fs

end

/-- A single-space whitespace token, as the tokenizer emits between words. -/
def wsTok : Token := Token.tok .whitespaceT " "

def andKw : Token := Token.tok .keyword "AND"

def orKw : Token := Token.tok .keyword "OR"

/-- `True` when the string contains no dot, so that `split(".", 1)` applied to
`s ++ "." ++ rest` splits exactly after `s`. -/
def noDotIn (s : String) : Bool := s.data.all (fun c => c != '.')

/-- The string `k` surrounded by the quote character `q`. -/
def wrapChar (q : Char) (k : String) : String := String.mk (q :: k.data ++ [q])

/-- A run of `n` spaces. -/
def nSpaces (n : Nat) : String := String.mk (List.replicate n ' ')

/-- `pfx` is one of the param/metric/tag prefix aliases and `kt` the key type
it resolves to. -/
def pmtKeyType (pfx : String) (kt : KeyType) : Prop :=
  (pfx ∈ PARAM_IDENTIFIERS ∧ kt = .param) ∨
  (pfx ∈ METRIC_IDENTIFIERS ∧ kt = .metric) ∨
  (pfx ∈ TAG_IDENTIFIERS ∧ kt = .tag)

/-! ### Fuel adequacy: any fuel above the token size gives the same result -/

@[simp]
theorem ok_bind {α β : Type} (a : α) (f : α → Except Err β) :
    (Except.ok a >>= f) = f a := rfl

@[simp]
theorem error_bind {α β : Type} (e : Err) (f : α → Except Err β) :
    ((Except.error e : Except Err α) >>= f) = Except.error e := rfl

@[simp]
theorem pure_eq_ok {α : Type} (a : α) : (pure a : Except Err α) = .ok a := rfl

@[simp]
theorem sizeList_nil : Token.sizeList [] = 0 := rfl

@[simp]
theorem sizeList_cons (t : Token) (ts : List Token) :
    Token.sizeList (t :: ts) = t.size + Token.sizeList ts := rfl

theorem size_pos (t : Token) : 1 ≤ t.size := by
  cases t <;> simp [Token.size]

theorem sizeList_filter_le (p : Token → Bool) (ts : List Token) :
    Token.sizeList (ts.filter p) ≤ Token.sizeList ts := by
  induction ts with
  | nil => simp
  | cons t ts ih =>
    cases hp : p t <;> simp [List.filter_cons, hp] <;> have := size_pos t <;> omega

theorem splitList_ne_nil (p : Token → Bool) (ts : List Token) :
    splitList p ts ≠ [] := by
  induction ts with
  | nil => simp [splitList]
  | cons t ts ih =>
    simp only [splitList]
    split
    · simp
    · split
      · simp
      · simp

theorem chunksSize_splitList (p : Token → Bool) (ts : List Token) :
    chunksSize (splitList p ts) = Token.sizeList (ts.filter (fun t => !(p t))) := by
  induction ts with
  | nil => simp [splitList, chunksSize]
  | cons t ts ih =>
    cases hp : p t
    · simp only [splitList, hp, Bool.false_eq_true, if_neg, not_false_eq_true]
      rcases hs : splitList p ts with _ | ⟨c, cs⟩
      · exact absurd hs (splitList_ne_nil p ts)
      · rw [hs] at ih
        simp only [chunksSize, List.map_cons, List.sum_cons] at ih ⊢
        simp [List.filter_cons, hp]
        omega
    · simp only [splitList, hp, if_pos]
      simp only [chunksSize, List.map_cons, List.sum_cons, sizeList_nil] at ih ⊢
      simpa [List.filter_cons, hp] using ih

theorem sizeList_filter_pos_of_any (p : Token → Bool) (ts : List Token)
    (h : ts.any p) : 1 ≤ Token.sizeList (ts.filter p) := by
  induction ts with
  | nil => simp at h
  | cons t ts ih =>
    simp only [List.any_cons, Bool.or_eq_true] at h
    cases hp : p t
    · simp only [List.filter_cons, hp, Bool.false_eq_true, if_neg, not_false_eq_true]
      rcases h with h | h
      · rw [hp] at h; exact absurd h (by simp)
      · exact ih h
    · simp only [List.filter_cons, hp, if_pos, sizeList_cons]
      have := size_pos t
      omega

theorem sizeList_filter_add (p : Token → Bool) (ts : List Token) :
    Token.sizeList (ts.filter p) + Token.sizeList (ts.filter (fun t => !(p t)))
      = Token.sizeList ts := by
  induction ts with
  | nil => simp
  | cons t ts ih =>
    cases hp : p t <;>
      simp only [List.filter_cons, hp, Bool.not_true, Bool.not_false, if_pos, if_neg,
        Bool.false_eq_true, Bool.true_eq_false, not_false_eq_true, sizeList_cons] <;>
      omega

theorem chunksSize_lt (p : Token → Bool) (ts : List Token) (h : ts.any p) :
    chunksSize (splitList p ts) < Token.sizeList ts := by
  rw [chunksSize_splitList]
  have h1 := sizeList_filter_pos_of_any p ts h
  have h2 := sizeList_filter_add p ts
  omega

theorem mem_chunksSize_le (c : List Token) (css : List (List Token))
    (h : c ∈ css) : Token.sizeList c ≤ chunksSize css := by
  induction css with
  | nil => simp at h
  | cons c0 cs ih =>
    rcases List.mem_cons.mp h with rfl | h
    · simp only [chunksSize, List.map_cons, List.sum_cons]
      omega
    · have := ih h
      simp only [chunksSize, List.map_cons, List.sum_cons] at this ⊢
      omega

theorem sizeList_dropLast_le (ts : List Token) :
    Token.sizeList ts.dropLast ≤ Token.sizeList ts := by
  induction ts with
  | nil => simp
  | cons t ts ih =>
    cases ts with
    | nil => simp
    | cons t2 ts2 =>
      simp only [List.dropLast_cons₂, sizeList_cons] at ih ⊢
      omega

theorem sizeList_drop_one_le (ts : List Token) :
    Token.sizeList (ts.drop 1) ≤ Token.sizeList ts := by
  cases ts with
  | nil => simp
  | cons t ts =>
    simp only [List.drop_one, List.tail_cons, sizeList_cons]
    have := size_pos t
    omega

theorem parsePartsWith_congr (f g : List Token → Except Err Filter)
    (css : List (List Token)) (h : ∀ c ∈ css, f c = g c) :
    parsePartsWith f css = parsePartsWith g css := by
  induction css with
  | nil => rfl
  | cons c cs ih =>
    simp only [parsePartsWith]
    rw [h c (by simp), ih (fun c hc => h c (by simp [hc]))]

theorem parseTokenListF_congr (n : Nat) : ∀ (m : Nat) (tokens : List Token),
    Token.sizeList tokens < n → Token.sizeList tokens < m →
    parseTokenListF n tokens = parseTokenListF m tokens := by
  induction n with
  | zero => intro m tokens hn _; exact absurd hn (Nat.not_lt_zero _)
  | succ n ih =>
    intro m tokens hn hm
    cases m with
    | zero => exact absurd hm (Nat.not_lt_zero _)
    | succ m =>
      simp only [parseTokenListF]
      have hsize : Token.sizeList (tokens.filter (fun t => !t.isWhitespace))
          ≤ Token.sizeList tokens := sizeList_filter_le _ _
      generalize hg : tokens.filter (fun t => !t.isWhitespace) = ts at hsize ⊢
      cases ho : ts.any isOr
      · cases ha : ts.any isAnd
        · simp only [ho, ha, Bool.false_eq_true, if_neg, not_false_eq_true]
          split
          · rename_i gts
            have h1 := sizeList_dropLast_le (gts.drop 1)
            have h2 := sizeList_drop_one_le gts
            simp only [sizeList_cons, sizeList_nil, Token.size] at hsize
            exact ih m _ (by omega) (by omega)
          · rename_i gts
            simp only [sizeList_cons, sizeList_nil, Token.size] at hsize
            exact ih m _ (by omega) (by omega)
          · rfl
          · rfl
          · rfl
        · simp only [ho, ha, Bool.false_eq_true, if_neg, not_false_eq_true, if_pos]
          have heq : parsePartsWith (parseTokenListF n) (splitList isAnd ts)
              = parsePartsWith (parseTokenListF m) (splitList isAnd ts) := by
            apply parsePartsWith_congr
            intro c hc
            have h1 := mem_chunksSize_le c _ hc
            have h2 := chunksSize_lt isAnd ts ha
            exact ih m c (by omega) (by omega)
          rw [heq]
      · simp only [ho, if_pos]
        have heq : parsePartsWith (parseTokenListF n) (splitList isOr ts)
            = parsePartsWith (parseTokenListF m) (splitList isOr ts) := by
          apply parsePartsWith_congr
          intro c hc
          have h1 := mem_chunksSize_le c _ hc
          have h2 := chunksSize_lt isOr ts ho
          exact ih m c (by omega) (by omega)
        rw [heq]

/-- Fuel adequacy: any fuel above the token size computes `parseTokenList`. -/
theorem parseTokenListF_eq (n : Nat) (tokens : List Token)
    (h : Token.sizeList tokens < n) :
    parseTokenListF n tokens = parseTokenList tokens :=
  parseTokenListF_congr n (Token.sizeList tokens + 1) tokens h (by omega)

/-! ### Unfolding equations for `parseTokenList` in the source's terms -/

theorem parseTokenList_or (tokens : List Token)
    (h : (tokens.filter (fun t => !t.isWhitespace)).any isOr = true) :
    parseTokenList tokens =
      parsePartsWith parseTokenList
          (splitList isOr (tokens.filter (fun t => !t.isWhitespace))) >>=
        fun filters => pure (.compoundFilter .lor filters) := by
  have h0 : parseTokenList tokens =
      parsePartsWith (parseTokenListF (Token.sizeList tokens))
          (splitList isOr (tokens.filter (fun t => !t.isWhitespace))) >>=
        fun filters => pure (.compoundFilter .lor filters) := by
    unfold parseTokenList
    simp only [parseTokenListF]
    rw [if_pos h]
  rw [h0]
  have heq : parsePartsWith (parseTokenListF (Token.sizeList tokens))
      (splitList isOr (tokens.filter (fun t => !t.isWhitespace)))
      = parsePartsWith parseTokenList
      (splitList isOr (tokens.filter (fun t => !t.isWhitespace))) := by
    apply parsePartsWith_congr
    intro c hc
    have h1 := mem_chunksSize_le c _ hc
    have h2 := chunksSize_lt isOr _ h
    have h3 := sizeList_filter_le (fun t => !t.isWhitespace) tokens
    exact parseTokenListF_eq _ _ (by omega)
  rw [heq]

theorem parseTokenList_and (tokens : List Token)
    (hno : (tokens.filter (fun t => !t.isWhitespace)).any isOr = false)
    (h : (tokens.filter (fun t => !t.isWhitespace)).any isAnd = true) :
    parseTokenList tokens =
      parsePartsWith parseTokenList
          (splitList isAnd (tokens.filter (fun t => !t.isWhitespace))) >>=
        fun filters => pure (.compoundFilter .land filters) := by
  have h0 : parseTokenList tokens =
      parsePartsWith (parseTokenListF (Token.sizeList tokens))
          (splitList isAnd (tokens.filter (fun t => !t.isWhitespace))) >>=
        fun filters => pure (.compoundFilter .land filters) := by
    unfold parseTokenList
    simp only [parseTokenListF]
    rw [if_neg (by simp [hno]), if_pos h]
  rw [h0]
  have heq : parsePartsWith (parseTokenListF (Token.sizeList tokens))
      (splitList isAnd (tokens.filter (fun t => !t.isWhitespace)))
      = parsePartsWith parseTokenList
      (splitList isAnd (tokens.filter (fun t => !t.isWhitespace))) := by
    apply parsePartsWith_congr
    intro c hc
    have h1 := mem_chunksSize_le c _ hc
    have h2 := chunksSize_lt isAnd _ h
    have h3 := sizeList_filter_le (fun t => !t.isWhitespace) tokens
    exact parseTokenListF_eq _ _ (by omega)
  rw [heq]

/-- Source: a lone parenthesis group parses as its interior with the opening
and closing tokens stripped (`token.tokens[1:-1]`). -/
theorem parseTokenList_paren (gts : List Token) :
    parseTokenList [Token.group .parenthesisG gts]
      = parseTokenList ((gts.drop 1).dropLast) := by
  have h0 : parseTokenList [Token.group .parenthesisG gts]
      = parseTokenListF (Token.sizeList [Token.group .parenthesisG gts])
        ((gts.drop 1).dropLast) := rfl
  rw [h0]
  apply parseTokenListF_eq
  have h1 := sizeList_dropLast_le (gts.drop 1)
  have h2 := sizeList_drop_one_le gts
  simp only [sizeList_cons, sizeList_nil, Token.size]
  omega

/-- Source: a lone comparison group parses as its list of sub-tokens. -/
theorem parseTokenList_comparison (gts : List Token) :
    parseTokenList [Token.group .comparisonG gts] = parseTokenList gts := by
  have h0 : parseTokenList [Token.group .comparisonG gts]
      = parseTokenListF (Token.sizeList [Token.group .comparisonG gts]) gts := rfl
  rw [h0]
  apply parseTokenListF_eq
  simp only [sizeList_cons, sizeList_nil, Token.size]
  omega

/-! ### Inversion helpers for `Except` and the parts loop -/

theorem exceptBind_ok {α β : Type} (x : Except Err α) (f : α → Except Err β) (b : β)
    (h : (x >>= f) = .ok b) : ∃ a, x = .ok a ∧ f a = .ok b := by
  cases x with
  | ok a => exact ⟨a, rfl, h⟩
  | error e => simp [Bind.bind, Except.bind] at h

theorem exceptBind_error {α β : Type} (x : Except Err α) (f : α → Except Err β) (e : Err)
    (h : (x >>= f) = .error e) :
    x = .error e ∨ ∃ a, x = .ok a ∧ f a = .error e := by
  cases x with
  | ok a => exact Or.inr ⟨a, rfl, h⟩
  | error e0 =>
    simp only [Bind.bind, Except.bind] at h
    cases h
    exact Or.inl rfl

theorem parsePartsWith_ok (f : List Token → Except Err Filter)
    (css : List (List Token)) (fs : List Filter)
    (h : parsePartsWith f css = .ok fs) :
    fs.length = css.length ∧ ∀ x ∈ fs, ∃ c ∈ css, f c = .ok x := by
  induction css generalizing fs with
  | nil =>
    simp only [parsePartsWith] at h
    cases h
    simp
  | cons c cs ih =>
    simp only [parsePartsWith] at h
    obtain ⟨a, ha, h⟩ := exceptBind_ok _ _ _ h
    obtain ⟨as, has, h⟩ := exceptBind_ok _ _ _ h
    cases h
    obtain ⟨hlen, hmem⟩ := ih as has
    constructor
    · simp [hlen]
    · intro x hx
      rcases List.mem_cons.mp hx with rfl | hx
      · exact ⟨c, by simp, ha⟩
      · obtain ⟨c0, hc0, hfc0⟩ := hmem x hx
        exact ⟨c0, by simp [hc0], hfc0⟩

theorem parsePartsWith_error (f : List Token → Except Err Filter)
    (css : List (List Token)) (e : Err)
    (h : parsePartsWith f css = .error e) :
    ∃ c ∈ css, f c = .error e := by
  induction css with
  | nil => simp only [parsePartsWith] at h; cases h
  | cons c cs ih =>
    simp only [parsePartsWith] at h
    rcases exceptBind_error _ _ _ h with hc | ⟨a, _, h⟩
    · exact ⟨c, by simp, hc⟩
    · rcases exceptBind_error _ _ _ h with hcs | ⟨as, _, h⟩
      · obtain ⟨c0, hc0, hfc0⟩ := ih hcs
        exact ⟨c0, by simp [hc0], hfc0⟩
      · cases h

theorem splitList_length (p : Token → Bool) (ts : List Token) :
    (splitList p ts).length = ts.countP p + 1 := by
  induction ts with
  | nil => simp [splitList]
  | cons t ts ih =>
    cases hp : p t
    · simp only [splitList, hp, Bool.false_eq_true, if_neg, not_false_eq_true]
      rcases hs : splitList p ts with _ | ⟨c, cs⟩
      · exact absurd hs (splitList_ne_nil p ts)
      · rw [hs] at ih
        simp only [List.length_cons] at ih ⊢
        simp [List.countP_cons, hp]
        omega
    · simp only [splitList, hp, if_pos, List.length_cons]
      simp [List.countP_cons, hp, ih]

/-! ### Every parser error is a `ValueError` (never `MatchesNothing`) -/

theorem stripQuotes_error (v : String) (qs : List Char) (rq : Bool) (e : Err)
    (h : stripQuotes v qs rq = .error e) : ∃ m, e = .valueError m := by
  unfold stripQuotes at h
  split at h
  · cases h
  · split at h
    · cases h; exact ⟨_, rfl⟩
    · cases h

theorem parseIdentifier_error (t : Token) (e : Err)
    (h : parseIdentifier t = .error e) : ∃ m, e = .valueError m := by
  unfold parseIdentifier at h
  split at h
  · split at h
    · cases h; exact ⟨_, rfl⟩
    · split at h
      · rename_i e0 heq
        cases h
        exact stripQuotes_error _ _ _ _ heq
      · split at h
        · split at h
          · cases h
          · split at h
            · cases h
            · cases h; exact ⟨_, rfl⟩
        · split at h
          · cases h
          · split at h
            · cases h
            · split at h
              · cases h
              · cases h; exact ⟨_, rfl⟩
  · cases h; exact ⟨_, rfl⟩

theorem parseOperator_error (t : Token) (e : Err)
    (h : parseOperator t = .error e) : ∃ m, e = .valueError m := by
  unfold parseOperator at h
  split at h
  · cases h
  · split at h
    · split at h
      · cases h
      · cases h; exact ⟨_, rfl⟩
    · cases h; exact ⟨_, rfl⟩

theorem extractDefined_error (t : Token) (e : Err)
    (h : extractDefined t = .error e) : ∃ m, e = .valueError m := by
  unfold extractDefined at h
  split at h
  · cases h
  · split at h
    · cases h
    · cases h; exact ⟨_, rfl⟩

theorem extractNumber_error (t : Token) (e : Err)
    (h : extractNumber t = .error e) : ∃ m, e = .valueError m := by
  unfold extractNumber at h
  split at h
  · cases h
  · cases h
  · cases h; exact ⟨_, rfl⟩

theorem extractString_error (t : Token) (e : Err)
    (h : extractString t = .error e) : ∃ m, e = .valueError m := by
  unfold extractString at h
  split at h
  · exact stripQuotes_error _ _ _ _ h
  · cases h; exact ⟨_, rfl⟩

theorem extractNumberOrString_error (t : Token) (e : Err)
    (h : extractNumberOrString t = .error e) : ∃ m, e = .valueError m := by
  unfold extractNumberOrString at h
  split at h
  · cases h
  · split at h
    · cases h
    · cases h; exact ⟨_, rfl⟩

theorem parseValue_error (kt : KeyType) (op : ComparisonOperator) (t : Token) (e : Err)
    (h : parseValue kt op t = .error e) : ∃ m, e = .valueError m := by
  unfold parseValue at h
  split at h
  · exact extractDefined_error _ _ h
  · split at h
    · split at h
      · rename_i heq
        cases h
        exact extractString_error _ _ heq
      · split at h
        · cases h
        · cases h; exact ⟨_, rfl⟩
    · split at h
      · rename_i heq
        cases h
        exact extractString_error _ _ heq
      · split at h
        · cases h
        · cases h; exact ⟨_, rfl⟩
    · exact extractNumberOrString_error _ _ h
    · exact extractNumber_error _ _ h
    · split at h
      · rename_i heq
        cases h
        exact extractString_error _ _ heq
      · cases h

theorem validateOperator_error (kt : KeyType) (op : ComparisonOperator) (v : Value) (e : Err)
    (h : validateOperator kt op v = .error e) : ∃ m, e = .valueError m := by
  unfold validateOperator at h
  split at h
  · split at h
    · cases h; exact ⟨_, rfl⟩
    · cases h
  · split at h
    · split at h
      · cases h; exact ⟨_, rfl⟩
      · cases h
    · cases h

theorem singleFilterFromTokens_error (t1 t2 t3 : Token) (e : Err)
    (h : singleFilterFromTokens t1 t2 t3 = .error e) : ∃ m, e = .valueError m := by
  unfold singleFilterFromTokens at h
  rcases exceptBind_error _ _ _ h with h1 | ⟨⟨kt, k⟩, hid, h⟩
  · exact parseIdentifier_error _ _ h1
  rcases exceptBind_error _ _ _ h with h1 | ⟨op, hop, h⟩
  · exact parseOperator_error _ _ h1
  rcases exceptBind_error _ _ _ h with h1 | ⟨v, hv, h⟩
  · exact parseValue_error _ _ _ _ h1
  rcases exceptBind_error _ _ _ h with h1 | ⟨u, hu, h⟩
  · exact validateOperator_error _ _ _ _ h1
  cases kt <;> cases h

theorem parseTokenListF_error (n : Nat) : ∀ (tokens : List Token) (e : Err),
    parseTokenListF n tokens = .error e → ∃ m, e = .valueError m := by
  induction n with
  | zero =>
    intro tokens e h
    simp only [parseTokenListF] at h
    cases h
    exact ⟨_, rfl⟩
  | succ n ih =>
    intro tokens e h
    simp only [parseTokenListF] at h
    split at h
    · rcases exceptBind_error _ _ _ h with h1 | ⟨fs, _, h⟩
      · obtain ⟨c, _, hc⟩ := parsePartsWith_error _ _ _ h1
        exact ih c e hc
      · cases h
    · split at h
      · rcases exceptBind_error _ _ _ h with h1 | ⟨fs, _, h⟩
        · obtain ⟨c, _, hc⟩ := parsePartsWith_error _ _ _ h1
          exact ih c e hc
        · cases h
      · split at h
        · exact ih _ _ h
        · exact ih _ _ h
        · cases h; exact ⟨_, rfl⟩
        · exact singleFilterFromTokens_error _ _ _ _ h
        · cases h; exact ⟨_, rfl⟩

theorem parseTokenList_error (tokens : List Token) (e : Err)
    (h : parseTokenList tokens = .error e) : ∃ m, e = .valueError m :=
  parseTokenListF_error _ tokens e h

/-! ### Claims -/

/-- C4: wrapping any expression's token list in one layer of parentheses
(the tokenizer delivers `"(" ++ s ++ ")"` as a single parenthesis group whose
first and last children are the parenthesis punctuation) never changes the
parse result. -/
theorem parse_parenthesis_transparent (ts : List Token) :
    parseTokenList [Token.group .parenthesisG
      (Token.tok .punctuation "(" :: (ts ++ [Token.tok .punctuation ")"]))]
      = parseTokenList ts := by
  rw [parseTokenList_paren]
  have h : ((Token.tok .punctuation "(" ::
      (ts ++ [Token.tok .punctuation ")"])).drop 1).dropLast = ts := by
    simp
  rw [h]

/-- C8: whenever the input does not tokenize as exactly one statement (the
empty input tokenizes as zero statements, and multiple statements or a
tokenizer failure are also covered), `_parse_filter_string` returns no filter
and raises a `ValueError` whose message embeds the original input string. -/
theorem parse_filter_string_requires_single_statement (s : String)
    (parsed : SqlParseResult) (h : ∀ stmt, parsed ≠ .statements [stmt]) :
    (∀ f, parseFilterString s parsed ≠ .ok f) ∧
    ∃ pre post, parseFilterString s parsed = .error (.valueError (pre ++ s ++ post)) := by
  cases parsed with
  | failure =>
    refine ⟨?_, "Error parsing filter \x27", "\x27", rfl⟩
    intro f hf
    simp [parseFilterString] at hf
  | statements stmts =>
    rcases stmts with _ | ⟨s1, _ | ⟨s2, rest⟩⟩
    · refine ⟨?_, "Invalid filter \x27", "\x27. Must be a single statement.", rfl⟩
      intro f hf
      simp [parseFilterString] at hf
    · exact absurd rfl (h s1)
    · refine ⟨?_, "Invalid filter \x27", "\x27. Must be a single statement.", rfl⟩
      intro f hf
      simp [parseFilterString] at hf

theorem parse_filter_string_requires_single_statement_witness :
    (∀ f, parseFilterString "" (.statements []) ≠ .ok f) ∧
    ∃ pre post, parseFilterString "" (.statements [])
      = .error (.valueError (pre ++ "" ++ post)) :=
  parse_filter_string_requires_single_statement "" (.statements [])
    (fun stmt h => by simp at h)

/-- C9: the experiment-ID filter builder raises `MatchesNothing` exactly when
its (present) ID list is empty, and the filter-string parser never produces
`MatchesNothing` on any token list. -/
theorem matches_nothing_exactly_on_empty_ids :
    (∀ ids, filterByExperimentId ids = .error .matchesNothing ↔ ids = []) ∧
    (∀ tokens, parseTokenList tokens ≠ .error .matchesNothing) := by
  constructor
  · intro ids
    constructor
    · intro h
      unfold filterByExperimentId at h
      split at h
      · rename_i hlen
        exact List.length_eq_zero.mp hlen
      · exfalso
        rcases hm : List.map (fun i => Filter.experimentIdFilter ComparisonOperator.equalTo i) ids
            with _ | ⟨p, _ | ⟨p2, rest⟩⟩ <;> rw [hm] at h <;> simp at h
    · rintro rfl
      rfl
  · intro tokens h
    obtain ⟨m, hm⟩ := parseTokenList_error _ _ h
    cases hm

theorem matches_nothing_exactly_on_empty_ids_witness :
    filterByExperimentId [] = .error .matchesNothing ∧
    parseTokenList [] ≠ .error .matchesNothing :=
  ⟨(matches_nothing_exactly_on_empty_ids.1 []).mpr rfl,
   matches_nothing_exactly_on_empty_ids.2 []⟩

/-- C10: a `filter_string` that is `None` or whitespace-only contributes no
filter part and raises no error; in particular with no experiment IDs and the
`ALL` view type the result is `None`. -/
theorem blank_filter_string_ignored (eids : Option (List Int)) (vt : Nat)
    (parsed : SqlParseResult) (fs : Option String)
    (h : fs = none ∨ ∃ s, fs = some s ∧ pyStrip s = "") :
    buildSearchRunsFilter eids fs vt parsed = buildSearchRunsFilter eids none vt parsed ∧
    buildSearchRunsFilter none fs ViewTypeALL parsed = .ok none := by
  have key : ∀ (eids0 : Option (List Int)) (vt0 : Nat),
      buildSearchRunsFilter eids0 fs vt0 parsed
        = buildSearchRunsFilter eids0 none vt0 parsed := by
    intro eids0 vt0
    rcases h with rfl | ⟨s, rfl, hs⟩
    · rfl
    · unfold buildSearchRunsFilter
      simp [hs]
  refine ⟨key eids vt, ?_⟩
  rw [key none ViewTypeALL]
  rfl

theorem blank_filter_string_ignored_witness :
    buildSearchRunsFilter (some [1, 2]) (some " ") ViewTypeALL .failure
        = buildSearchRunsFilter (some [1, 2]) none ViewTypeALL .failure ∧
    buildSearchRunsFilter none (some " ") ViewTypeALL .failure = .ok none :=
  blank_filter_string_ignored (some [1, 2]) ViewTypeALL .failure (some " ")
    (Or.inr ⟨" ", rfl, rfl⟩)

/-! ### String facts -/

theorem stringMk_data : ∀ s : String, String.mk s.data = s
  | ⟨_⟩ => rfl

@[simp]
theorem value_tok (tt : TType) (v : String) : Token.value (.tok tt v) = v := rfl

@[simp]
theorem valueList_nil : Token.valueList [] = "" := rfl

@[simp]
theorem valueList_cons (t : Token) (ts : List Token) :
    Token.valueList (t :: ts) = t.value ++ Token.valueList ts := rfl

@[simp]
theorem value_group (k : GroupKind) (ts : List Token) :
    Token.value (.group k ts) = Token.valueList ts := rfl

theorem string_append_empty (s : String) : s ++ "" = s := by
  cases s with
  | mk l => show String.mk (l ++ []) = String.mk l; rw [List.append_nil]

/-- C6: for `PARAM` leaves with a non-`DEFINED` operator, value extraction
tries numbers first (integer token → integer value, float token → float
value), falls back to quoted-string extraction only when number extraction
fails, and errors expecting "a number or quoted string" only when both
fail. -/
theorem param_value_number_then_string :
    (∀ op t, op ≠ ComparisonOperator.defined →
      parseValue .param op t = extractNumberOrString t) ∧
    (∀ v, extractNumberOrString (.tok .numberInteger v) = .ok (.intV v)) ∧
    (∀ v, extractNumberOrString (.tok .numberFloat v) = .ok (.floatV v)) ∧
    (∀ t e s, extractNumber t = .error e → extractString t = .ok s →
      extractNumberOrString t = .ok (.strV s)) ∧
    (∀ t e1 e2, extractNumber t = .error e1 → extractString t = .error e2 →
      extractNumberOrString t = .error (.valueError
        (INVALID_VALUE_TPL "a number or quoted string" t.value))) := by
  refine ⟨?_, ?_, ?_, ?_, ?_⟩
  · intro op t hop
    unfold parseValue
    rw [if_neg hop]
  · intro v; rfl
  · intro v; rfl
  · intro t e s hn hs
    unfold extractNumberOrString
    rw [hn, hs]
  · intro t e1 e2 hn hs
    unfold extractNumberOrString
    rw [hn, hs]

theorem param_value_number_then_string_witness :
    parseValue .param .greaterThan (.tok .numberInteger "20")
      = extractNumberOrString (.tok .numberInteger "20") :=
  param_value_number_then_string.1 .greaterThan (.tok .numberInteger "20") (by decide)

/-- C2: a successfully built leaf with key type `RUN_ID`, `STATUS` or `TAG`,
or `PARAM` with a string value, has a discrete operator; an ordering operator
with such a key (and an otherwise valid value) is rejected with the
unsupported-operator message naming the key type; `METRIC` and numeric
`PARAM` pass operator validation for every operator. -/
theorem discrete_key_types_reject_ordering_operators :
    (∀ t1 t2 t3 f kt k, singleFilterFromTokens t1 t2 t3 = .ok f →
      parseIdentifier t1 = .ok (kt, k) → kt ∈ DISCRETE_KEY_TYPES →
      ∃ op, parseOperator t2 = .ok op ∧ op ∈ DISCRETE_OPERATORS) ∧
    (∀ t1 t2 t3 f k op v, singleFilterFromTokens t1 t2 t3 = .ok f →
      parseIdentifier t1 = .ok (KeyType.param, k) → parseOperator t2 = .ok op →
      parseValue .param op t3 = .ok v → v.isStringValue = true →
      op ∈ DISCRETE_OPERATORS) ∧
    (∀ t1 t2 t3 kt k op v, parseIdentifier t1 = .ok (kt, k) →
      parseOperator t2 = .ok op → parseValue kt op t3 = .ok v →
      op ∈ ORDERING_OPERATORS →
      (kt ∈ DISCRETE_KEY_TYPES →
        singleFilterFromTokens t1 t2 t3 = .error (.valueError (pyCapitalize kt.value ++
          " filters can only be used with operators \x27=\x27, \x27!=\x27 and \x27IS NULL\x27"))) ∧
      (kt = KeyType.param → v.isStringValue = true →
        singleFilterFromTokens t1 t2 t3 = .error (.valueError
          ("Param filters with string values can only be used with " ++
            "operators \x27=\x27, \x27!=\x27 and \x27IS NULL\x27")))) ∧
    (∀ op v, validateOperator .metric op v = .ok ()) ∧
    (∀ op v, v.isStringValue = false → validateOperator .param op v = .ok ()) := by
  refine ⟨?_, ?_, ?_, ?_, ?_⟩
  · intro t1 t2 t3 f kt k h hid hkt
    unfold singleFilterFromTokens at h
    obtain ⟨⟨kt0, k0⟩, hid0, h⟩ := exceptBind_ok _ _ _ h
    rw [hid] at hid0
    injection hid0 with hid0
    cases hid0
    obtain ⟨op, hop, h⟩ := exceptBind_ok _ _ _ h
    obtain ⟨v, hv, h⟩ := exceptBind_ok _ _ _ h
    obtain ⟨u, hval, h⟩ := exceptBind_ok _ _ _ h
    refine ⟨op, hop, ?_⟩
    unfold validateOperator at hval
    fin_cases hkt <;>
      simp only [DISCRETE_KEY_TYPES, List.contains_cons, beq_self_eq_true, Bool.true_or,
        Bool.or_true, if_pos, List.contains_nil, Bool.or_false] at hval <;>
      · rcases hcop : DISCRETE_OPERATORS.contains op with _ | _
        · rw [hcop] at hval; simp at hval
        · revert hcop; cases op <;> decide
  · intro t1 t2 t3 f k op v h hid hop0 hv0 hstr
    unfold singleFilterFromTokens at h
    obtain ⟨⟨kt0, k0⟩, hid0, h⟩ := exceptBind_ok _ _ _ h
    rw [hid] at hid0
    injection hid0 with hid0
    cases hid0
    obtain ⟨op1, hop1, h⟩ := exceptBind_ok _ _ _ h
    rw [hop0] at hop1
    injection hop1 with hop1
    cases hop1
    obtain ⟨v1, hv1, h⟩ := exceptBind_ok _ _ _ h
    rw [hv0] at hv1
    injection hv1 with hv1
    cases hv1
    obtain ⟨u, hval, h⟩ := exceptBind_ok _ _ _ h
    unfold validateOperator at hval
    simp only [DISCRETE_KEY_TYPES, List.contains_cons, List.contains_nil] at hval
    rw [if_neg (by decide), if_pos (by simp [hstr])] at hval
    rcases hcop : DISCRETE_OPERATORS.contains op with _ | _
    · rw [hcop] at hval; simp at hval
    · revert hcop; cases op <;> decide
  · intro t1 t2 t3 kt k op v hid hop hv hord
    have hbind : singleFilterFromTokens t1 t2 t3 =
        (validateOperator kt op v >>= fun _ =>
          match kt with
          | .runId => pure (.runIdFilter op v)
          | .status => pure (.runStatusFilter op v)
          | .param => pure (.paramFilter k op v)
          | .metric => pure (.metricFilter k op v)
          | .tag => pure (.tagFilter k op v)) := by
      unfold singleFilterFromTokens
      simp only [hid, hop, hv, ok_bind]
    constructor
    · intro hkt
      rw [hbind]
      have hverr : validateOperator kt op v = .error (.valueError (pyCapitalize kt.value ++
          " filters can only be used with operators \x27=\x27, \x27!=\x27 and \x27IS NULL\x27")) := by
        fin_cases hkt <;> fin_cases hord <;> rfl
      rw [hverr, error_bind]
    · intro hkt hstr
      cases hkt
      rw [hbind]
      have hverr : validateOperator .param op v = .error (.valueError
          ("Param filters with string values can only be used with " ++
            "operators \x27=\x27, \x27!=\x27 and \x27IS NULL\x27")) := by
        cases v <;> simp only [Value.isStringValue, Bool.false_eq_true] at hstr
        fin_cases hord <;> rfl
      rw [hverr, error_bind]
  · intro op v; rfl
  · intro op v hv
    unfold validateOperator
    rw [if_neg (by decide), if_neg (by simp [hv])]

theorem discrete_key_types_reject_ordering_operators_witness :
    ∃ op, parseOperator (Token.tok .comparisonOp "=") = .ok op ∧
      op ∈ DISCRETE_OPERATORS :=
  discrete_key_types_reject_ordering_operators.1
    (Token.group .identifierG [Token.tok .nameT "tag.env"])
    (Token.tok .comparisonOp "=")
    (Token.tok .stringSingle (wrapChar squoteChar "prod"))
    (Filter.tagFilter (some "env") .equalTo (.strV "prod"))
    KeyType.tag (some "env") (by rfl) (by rfl) (by decide)

/-! ### C5: `IS [NOT] NULL` value handling -/

theorem toUpper_space : Char.toUpper ' ' = ' ' := rfl

theorem pyUpper_NULL : pyUpper "NULL" = "NULL" := rfl

theorem spacesThenNull_replicate (n : Nat) (h : 1 ≤ n) :
    spacesThenNull (List.replicate n ' ' ++ ['N', 'U', 'L', 'L']) = true := by
  induction n with
  | zero => omega
  | succ m ih =>
    rw [List.replicate_succ, List.cons_append]
    simp only [spacesThenNull, beq_self_eq_true, Bool.true_and, Bool.or_eq_true]
    cases m with
    | zero => simp [startsNull]
    | succ m2 => exact Or.inr (ih (by omega))

/-- C5: when the operator is `DEFINED` (for every key type), a `NULL` keyword
token (any letter case) yields `false`, a `NOT ... NULL` keyword token with
any positive number of internal spaces and any letter case yields `true`, and
every other value token — one that matches neither the `NULL` keyword nor the
`NOT +NULL` keyword pattern — raises the `InvalidValue` error expecting
"NULL or NOT NULL"; no further outcome is possible. -/
theorem defined_operator_null_values :
    (∀ kt t, parseValue kt .defined t = extractDefined t) ∧
    (∀ v, pyUpper v = "NULL" → extractDefined (.tok .keyword v) = .ok (.boolV false)) ∧
    (∀ v1 v2 n, 1 ≤ n → pyUpper v1 = "NOT" → pyUpper v2 = "NULL" →
      extractDefined (.tok .keyword (v1 ++ nSpaces n ++ v2)) = .ok (.boolV true)) ∧
    (∀ t, Token.matchKeyword t "NULL" = false → Token.matchNotNullKeyword t = false →
      extractDefined t = .error (.valueError (INVALID_VALUE_TPL "NULL or NOT NULL" t.value))) ∧
    (∀ t, extractDefined t = .ok (.boolV false) ∨ extractDefined t = .ok (.boolV true) ∨
      extractDefined t = .error (.valueError (INVALID_VALUE_TPL "NULL or NOT NULL" t.value))) := by
  refine ⟨?_, ?_, ?_, ?_, ?_⟩
  · intro kt t
    unfold parseValue
    rw [if_pos rfl]
  · intro v hv
    have hm : Token.matchKeyword (.tok .keyword v) "NULL" = true := by
      simp [Token.matchKeyword, Token.isKeyword, Token.normalized, hv, pyUpper_NULL]
    simp [extractDefined, hm]
  · intro v1 v2 n hn hv1 hv2
    have hd1 : v1.data.map Char.toUpper = ['N', 'O', 'T'] := congrArg String.data hv1
    have hd2 : v2.data.map Char.toUpper = ['N', 'U', 'L', 'L'] := congrArg String.data hv2
    have hdata : ((v1 ++ nSpaces n ++ v2).data).map Char.toUpper
        = 'N' :: 'O' :: 'T' :: (List.replicate n ' ' ++ ['N', 'U', 'L', 'L']) := by
      simp [String.data_append, List.map_append, hd1, hd2, nSpaces,
        List.map_replicate, toUpper_space]
    have hne : pyUpper (v1 ++ nSpaces n ++ v2) ≠ "NULL" := by
      intro heq
      have hlen := congrArg (fun s => s.data.length) heq
      simp only [pyUpper] at hlen
      rw [hdata] at hlen
      simp [List.length_append, List.length_replicate] at hlen
    have hm1 : Token.matchKeyword (.tok .keyword (v1 ++ nSpaces n ++ v2)) "NULL" = false := by
      simp [Token.matchKeyword, Token.isKeyword, Token.normalized, pyUpper_NULL, hne]
    have hm2 : Token.matchNotNullKeyword (.tok .keyword (v1 ++ nSpaces n ++ v2)) = true := by
      simp only [Token.matchNotNullKeyword, Token.isKeyword, Token.normalized, if_pos,
        Bool.true_and]
      show searchNotNull (pyUpper (v1 ++ nSpaces n ++ v2)).data = true
      simp only [pyUpper]
      rw [hdata]
      simp only [searchNotNull, notNullAt, beq_self_eq_true, Bool.true_and, Bool.or_eq_true]
      exact Or.inl (spacesThenNull_replicate n hn)
    simp [extractDefined, hm1, hm2]
  · intro t h1 h2
    unfold extractDefined
    rw [if_neg (by simp [h1]), if_neg (by simp [h2])]
  · intro t
    unfold extractDefined
    split
    · exact Or.inl rfl
    · split
      · exact Or.inr (Or.inl rfl)
      · exact Or.inr (Or.inr rfl)

theorem defined_operator_null_values_witness :
    parseValue .metric .defined (.tok .keyword ("nOt" ++ nSpaces 3 ++ "NuLl"))
        = extractDefined (.tok .keyword ("nOt" ++ nSpaces 3 ++ "NuLl")) ∧
    extractDefined (.tok .keyword ("nOt" ++ nSpaces 3 ++ "NuLl")) = .ok (.boolV true) ∧
    extractDefined (.tok .keyword "FOO")
        = .error (.valueError (INVALID_VALUE_TPL "NULL or NOT NULL" "FOO")) :=
  ⟨defined_operator_null_values.1 .metric (.tok .keyword ("nOt" ++ nSpaces 3 ++ "NuLl")),
   defined_operator_null_values.2.2.1 "nOt" "NuLl" 3 (by decide) (by decide) (by decide),
   defined_operator_null_values.2.2.2.1 (.tok .keyword "FOO") (by decide) (by decide)⟩

/-! ### C3: quote handling for identifier keys and string values -/

theorem splitFirstDotChars_append (p r : List Char)
    (hp : p.all (fun c => c != '.') = true) :
    splitFirstDotChars (p ++ '.' :: r) = some (p, r) := by
  induction p with
  | nil => simp [splitFirstDotChars]
  | cons c cs ih =>
    simp only [List.all_cons, Bool.and_eq_true] at hp
    simp only [List.cons_append, splitFirstDotChars, List.append_eq]
    rw [if_neg (by simpa using hp.1), ih hp.2]

theorem splitFirstDot_noDot (p r : String) (hp : noDotIn p = true) :
    splitFirstDot (p ++ "." ++ r) = some (p, r) := by
  unfold splitFirstDot
  have hd : (p ++ "." ++ r).data = p.data ++ '.' :: r.data := by
    simp [String.data_append]
  rw [hd, splitFirstDotChars_append p.data r.data hp]

theorem wrapChar_data (q : Char) (k : String) :
    (wrapChar q k).data = q :: (k.data ++ [q]) := rfl

theorem isQuoted_wrap_self (q : Char) (k : String) : isQuoted (wrapChar q k) q = true := by
  simp only [isQuoted, wrapChar_data]
  have h2 : (q :: (k.data ++ [q])).getLast? = some q := by
    rw [show q :: (k.data ++ [q]) = (q :: k.data) ++ [q] from rfl]
    exact List.getLast?_concat _
  simp [h2, List.length_append]

theorem isQuoted_wrap_ne (q q2 : Char) (k : String) (h : q ≠ q2) :
    isQuoted (wrapChar q k) q2 = false := by
  simp [isQuoted, wrapChar_data, h]

theorem find?_isQuoted_wrap (q : Char) (k : String) (qs : List Char) (hq : q ∈ qs) :
    qs.find? (fun c => isQuoted (wrapChar q k) c) = some q := by
  induction qs with
  | nil => simp at hq
  | cons c cs ih =>
    rcases List.mem_cons.mp hq with rfl | hmem
    · simp [List.find?_cons, isQuoted_wrap_self]
    · by_cases hcq : c = q
      · subst hcq
        simp [List.find?_cons, isQuoted_wrap_self]
      · rw [List.find?_cons_of_neg _ (by simp [isQuoted_wrap_ne q c k (fun h => hcq h.symm)])]
        exact ih hmem

theorem stripQuotes_wrap_mem (q : Char) (k : String) (qs : List Char) (rq : Bool)
    (hq : q ∈ qs) : stripQuotes (wrapChar q k) qs rq = .ok k := by
  unfold stripQuotes
  rw [find?_isQuoted_wrap q k qs hq]
  simp only [wrapChar_data, List.drop_succ_cons, List.drop_zero, List.dropLast_concat,
    stringMk_data]

theorem stripQuotes_unquoted (v : String) (qs : List Char)
    (h : ∀ q ∈ qs, isQuoted v q = false) :
    stripQuotes v qs false = .ok v := by
  unfold stripQuotes
  rw [List.find?_eq_none.mpr (by intro c hc; simp [h c hc])]
  rfl

theorem stripQuotes_unquoted_require (v : String) (qs : List Char)
    (h : ∀ q ∈ qs, isQuoted v q = false) :
    stripQuotes v qs true = .error (.valueError
      (INVALID_VALUE_TPL ("a string quoted with one of " ++ quoteSetText qs) v)) := by
  unfold stripQuotes
  rw [List.find?_eq_none.mpr (by intro c hc; simp [h c hc])]
  rfl

theorem extractString_single (v : String) :
    extractString (Token.tok .stringSingle v)
      = stripQuotes v [dquoteChar, squoteChar] true := rfl

theorem extractString_identifier_group (ts : List Token) :
    extractString (Token.group .identifierG ts)
      = stripQuotes (Token.valueList ts) [dquoteChar, squoteChar] true := rfl

theorem parseIdentifier_eval (pfx rest : String) (hnd : noDotIn pfx = true) :
    parseIdentifier (Token.group .identifierG [Token.tok .nameT (pfx ++ "." ++ rest)]) =
      (match stripQuotes rest [dquoteChar, btickChar] false with
       | .error e => .error e
       | .ok key =>
         if ATTRIBUTE_IDENTIFIERS.contains pfx then
           if RUN_ID_IDENTIFIERS.contains key then .ok (.runId, none)
           else if key = "status" then .ok (.status, none)
           else .error (.valueError (INVALID_IDENTIFIER_TPL (pfx ++ "." ++ rest)))
         else if PARAM_IDENTIFIERS.contains pfx then .ok (.param, some key)
         else if METRIC_IDENTIFIERS.contains pfx then .ok (.metric, some key)
         else if TAG_IDENTIFIERS.contains pfx then .ok (.tag, some key)
         else .error (.valueError (INVALID_IDENTIFIER_TPL (pfx ++ "." ++ rest)))) := by
  unfold parseIdentifier
  simp only [value_group, valueList_cons, valueList_nil, value_tok, string_append_empty]
  rw [splitFirstDot_noDot pfx rest hnd]

/-- C3 counterexample: a single-quoted identifier sub-key is NOT stripped (the
key keeps its quotes, unlike the double-quoted/backtick forms), and a
backtick-quoted string value is rejected rather than treated like the other
quote characters.  The tokens are as sqlparse delivers them: `params.'x'` is
an identifier group, a backtick-quoted value arrives as an identifier group. -/
theorem quote_equivalence_counterexample :
    parseIdentifier (Token.group .identifierG
        [Token.tok .nameT "params", Token.tok .punctuation ".",
         Token.tok .stringSingle (wrapChar squoteChar "x")])
      = .ok (.param, some (wrapChar squoteChar "x")) ∧
    parseIdentifier (Token.group .identifierG
        [Token.tok .nameT "params", Token.tok .punctuation ".", Token.tok .nameT "x"])
      = .ok (.param, some "x") ∧
    wrapChar squoteChar "x" ≠ "x" ∧
    extractString (Token.group .identifierG [Token.tok .nameT (wrapChar btickChar "v")])
      = .error (.valueError (INVALID_VALUE_TPL
          ("a string quoted with one of " ++ quoteSetText [dquoteChar, squoteChar])
          (wrapChar btickChar "v"))) := by
  refine ⟨rfl, rfl, by decide, ?_⟩
  rw [extractString_identifier_group]
  rw [show Token.valueList [Token.tok .nameT (wrapChar btickChar "v")]
      = wrapChar btickChar "v" from by simp [string_append_empty]]
  exact stripQuotes_unquoted_require _ _ (by decide)

/-- C3 amended: identifier sub-keys for param/metric/tag strip one layer of
double quotes or backticks (single quotes are kept verbatim); string values
strip one layer of single or double quotes (backticks are an error); within
those sets the quoted and unquoted (resp. otherwise-quoted) forms agree. -/
theorem quote_stripping_amended :
    (∀ pfx kt k q, pmtKeyType pfx kt → noDotIn pfx = true →
      (q = dquoteChar ∨ q = btickChar) →
      parseIdentifier (Token.group .identifierG
        [Token.tok .nameT (pfx ++ "." ++ wrapChar q k)]) = .ok (kt, some k)) ∧
    (∀ pfx kt k, pmtKeyType pfx kt → noDotIn pfx = true →
      isQuoted k dquoteChar = false → isQuoted k btickChar = false →
      parseIdentifier (Token.group .identifierG
        [Token.tok .nameT (pfx ++ "." ++ k)]) = .ok (kt, some k)) ∧
    (∀ pfx kt k, pmtKeyType pfx kt → noDotIn pfx = true →
      parseIdentifier (Token.group .identifierG
        [Token.tok .nameT (pfx ++ "." ++ wrapChar squoteChar k)])
        = .ok (kt, some (wrapChar squoteChar k))) ∧
    (∀ k, extractString (Token.tok .stringSingle (wrapChar squoteChar k)) = .ok k) ∧
    (∀ k, extractString (Token.group .identifierG
        [Token.tok .nameT (wrapChar dquoteChar k)]) = .ok k) ∧
    (∀ k, extractString (Token.group .identifierG
        [Token.tok .nameT (wrapChar btickChar k)])
      = .error (.valueError (INVALID_VALUE_TPL
          ("a string quoted with one of " ++ quoteSetText [dquoteChar, squoteChar])
          (wrapChar btickChar k)))) := by
  refine ⟨?_, ?_, ?_, ?_, ?_, ?_⟩
  · intro pfx kt k q hpmt hnd hq
    rw [parseIdentifier_eval pfx (wrapChar q k) hnd]
    have hstrip : stripQuotes (wrapChar q k) [dquoteChar, btickChar] false = .ok k := by
      rcases hq with rfl | rfl
      · exact stripQuotes_wrap_mem _ _ _ _ (by simp)
      · exact stripQuotes_wrap_mem _ _ _ _ (by simp)
    rw [hstrip]
    rcases hpmt with ⟨hm, rfl⟩ | ⟨hm, rfl⟩ | ⟨hm, rfl⟩ <;> fin_cases hm <;> rfl
  · intro pfx kt k hpmt hnd hd hb
    rw [parseIdentifier_eval pfx k hnd]
    rw [stripQuotes_unquoted k _ (by
      intro qq hqq
      rcases List.mem_cons.mp hqq with rfl | hqq
      · exact hd
      · rcases List.mem_cons.mp hqq with rfl | hqq
        · exact hb
        · simp at hqq)]
    rcases hpmt with ⟨hm, rfl⟩ | ⟨hm, rfl⟩ | ⟨hm, rfl⟩ <;> fin_cases hm <;> rfl
  · intro pfx kt k hpmt hnd
    rw [parseIdentifier_eval pfx (wrapChar squoteChar k) hnd]
    rw [stripQuotes_unquoted _ _ (by
      intro qq hqq
      rcases List.mem_cons.mp hqq with rfl | hqq
      · exact isQuoted_wrap_ne _ _ _ (by decide)
      · rcases List.mem_cons.mp hqq with rfl | hqq
        · exact isQuoted_wrap_ne _ _ _ (by decide)
        · simp at hqq)]
    rcases hpmt with ⟨hm, rfl⟩ | ⟨hm, rfl⟩ | ⟨hm, rfl⟩ <;> fin_cases hm <;> rfl
  · intro k
    rw [extractString_single]
    exact stripQuotes_wrap_mem _ _ _ _ (by simp)
  · intro k
    rw [extractString_identifier_group]
    rw [show Token.valueList [Token.tok .nameT (wrapChar dquoteChar k)]
        = wrapChar dquoteChar k from by simp [string_append_empty]]
    exact stripQuotes_wrap_mem _ _ _ _ (by simp)
  · intro k
    rw [extractString_identifier_group]
    rw [show Token.valueList [Token.tok .nameT (wrapChar btickChar k)]
        = wrapChar btickChar k from by simp [string_append_empty]]
    exact stripQuotes_unquoted_require _ _ (by
      intro qq hqq
      rcases List.mem_cons.mp hqq with rfl | hqq
      · exact isQuoted_wrap_ne _ _ _ (by decide)
      · rcases List.mem_cons.mp hqq with rfl | hqq
        · exact isQuoted_wrap_ne _ _ _ (by decide)
        · simp at hqq)

theorem quote_stripping_amended_witness :
    parseIdentifier (Token.group .identifierG
      [Token.tok .nameT ("params" ++ "." ++ wrapChar btickChar "alpha.1")])
      = .ok (.param, some "alpha.1") :=
  quote_stripping_amended.1 "params" .param "alpha.1" btickChar
    (Or.inl ⟨by decide, rfl⟩) (by decide) (Or.inr rfl)

/-! ### C1: AND binds tighter than OR -/

/-- C1: for leaf comparison expressions `A`, `B`, `C` (delivered by the
tokenizer as comparison groups separated by whitespace and the `AND`/`OR`
keywords), `A AND B OR C` parses as
`CompoundFilter(OR, [CompoundFilter(AND, [A, B]), C])`: the token list is
split on `OR` before `AND`. -/
theorem and_binds_tighter_than_or (gA gB gC : List Token) (fA fB fC : Filter)
    (hA : parseTokenList [Token.group .comparisonG gA] = .ok fA)
    (hB : parseTokenList [Token.group .comparisonG gB] = .ok fB)
    (hC : parseTokenList [Token.group .comparisonG gC] = .ok fC) :
    parseTokenList [Token.group .comparisonG gA, wsTok, andKw, wsTok,
        Token.group .comparisonG gB, wsTok, orKw, wsTok, Token.group .comparisonG gC]
      = .ok (.compoundFilter .lor [.compoundFilter .land [fA, fB], fC]) := by
  have hAnd : parseTokenList [Token.group .comparisonG gA, andKw, Token.group .comparisonG gB]
      = .ok (.compoundFilter .land [fA, fB]) := by
    rw [parseTokenList_and _ (by rfl) (by rfl)]
    rw [show splitList isAnd (List.filter (fun t => !t.isWhitespace)
        [Token.group .comparisonG gA, andKw, Token.group .comparisonG gB])
        = [[Token.group .comparisonG gA], [Token.group .comparisonG gB]] from rfl]
    simp only [parsePartsWith, hA, hB, ok_bind, pure_eq_ok]
  rw [parseTokenList_or _ (by rfl)]
  rw [show splitList isOr (List.filter (fun t => !t.isWhitespace)
      [Token.group .comparisonG gA, wsTok, andKw, wsTok, Token.group .comparisonG gB,
       wsTok, orKw, wsTok, Token.group .comparisonG gC])
      = [[Token.group .comparisonG gA, andKw, Token.group .comparisonG gB],
         [Token.group .comparisonG gC]] from rfl]
  simp only [parsePartsWith, hAnd, hC, ok_bind, pure_eq_ok]

theorem and_binds_tighter_than_or_witness :
    parseTokenList [Token.group .comparisonG
        [Token.group .identifierG [Token.tok .nameT "metric.a"],
         Token.tok .keyword "IS", Token.tok .keyword "NOT NULL"], wsTok, andKw, wsTok,
        Token.group .comparisonG
        [Token.group .identifierG [Token.tok .nameT "metric.b"],
         Token.tok .keyword "IS", Token.tok .keyword "NOT NULL"], wsTok, orKw, wsTok,
        Token.group .comparisonG
        [Token.group .identifierG [Token.tok .nameT "metric.c"],
         Token.tok .keyword "IS", Token.tok .keyword "NOT NULL"]]
      = .ok (.compoundFilter .lor
          [.compoundFilter .land
            [.metricFilter (some "a") .defined (.boolV true),
             .metricFilter (some "b") .defined (.boolV true)],
           .metricFilter (some "c") .defined (.boolV true)]) :=
  and_binds_tighter_than_or
    [Token.group .identifierG [Token.tok .nameT "metric.a"],
     Token.tok .keyword "IS", Token.tok .keyword "NOT NULL"]
    [Token.group .identifierG [Token.tok .nameT "metric.b"],
     Token.tok .keyword "IS", Token.tok .keyword "NOT NULL"]
    [Token.group .identifierG [Token.tok .nameT "metric.c"],
     Token.tok .keyword "IS", Token.tok .keyword "NOT NULL"]
    (.metricFilter (some "a") .defined (.boolV true))
    (.metricFilter (some "b") .defined (.boolV true))
    (.metricFilter (some "c") .defined (.boolV true))
    rfl rfl rfl

/-! ### C7: compound filters always have at least two children -/

@[simp]
theorem compoundOKList_nil : Filter.compoundOKList [] = true := rfl

@[simp]
theorem compoundOKList_cons (f : Filter) (fs : List Filter) :
    Filter.compoundOKList (f :: fs) = (f.compoundOK && Filter.compoundOKList fs) := rfl

@[simp]
theorem compoundOK_compound (lop : LogicalOperator) (cs : List Filter) :
    (Filter.compoundFilter lop cs).compoundOK
      = (decide (2 ≤ cs.length) && Filter.compoundOKList cs) := rfl

theorem compoundOKList_iff (fs : List Filter) :
    Filter.compoundOKList fs = true ↔ ∀ f ∈ fs, f.compoundOK = true := by
  induction fs with
  | nil => simp
  | cons f fs ih => simp [ih, List.forall_mem_cons]

theorem singleFilterFromTokens_ok_compoundOK (t1 t2 t3 : Token) (f : Filter)
    (h : singleFilterFromTokens t1 t2 t3 = .ok f) : f.compoundOK = true := by
  unfold singleFilterFromTokens at h
  obtain ⟨⟨kt, k⟩, _, h⟩ := exceptBind_ok _ _ _ h
  obtain ⟨op, _, h⟩ := exceptBind_ok _ _ _ h
  obtain ⟨v, _, h⟩ := exceptBind_ok _ _ _ h
  obtain ⟨u, _, h⟩ := exceptBind_ok _ _ _ h
  cases kt <;> (cases h; rfl)

theorem parseTokenListF_ok_compoundOK (n : Nat) : ∀ (tokens : List Token) (f : Filter),
    parseTokenListF n tokens = .ok f → f.compoundOK = true := by
  induction n with
  | zero =>
    intro tokens f h
    simp [parseTokenListF] at h
  | succ n ih =>
    intro tokens f h
    simp only [parseTokenListF] at h
    split at h
    · rename_i ho
      obtain ⟨fs, hps, h2⟩ := exceptBind_ok _ _ _ h
      cases h2
      obtain ⟨hlen, hmem⟩ := parsePartsWith_ok _ _ _ hps
      simp only [compoundOK_compound, Bool.and_eq_true, decide_eq_true_eq]
      constructor
      · rw [hlen, splitList_length]
        have hpos : 0 < (tokens.filter (fun t => !t.isWhitespace)).countP isOr := by
          rw [List.countP_pos_iff]
          obtain ⟨a, ha, hpa⟩ := List.any_eq_true.mp ho
          exact ⟨a, ha, hpa⟩
        omega
      · rw [compoundOKList_iff]
        intro x hx
        obtain ⟨c, _, hc⟩ := hmem x hx
        exact ih c x hc
    · split at h
      · rename_i ha
        obtain ⟨fs, hps, h2⟩ := exceptBind_ok _ _ _ h
        cases h2
        obtain ⟨hlen, hmem⟩ := parsePartsWith_ok _ _ _ hps
        simp only [compoundOK_compound, Bool.and_eq_true, decide_eq_true_eq]
        constructor
        · rw [hlen, splitList_length]
          have hpos : 0 < (tokens.filter (fun t => !t.isWhitespace)).countP isAnd := by
            rw [List.countP_pos_iff]
            obtain ⟨a, ha2, hpa⟩ := List.any_eq_true.mp ha
            exact ⟨a, ha2, hpa⟩
          omega
        · rw [compoundOKList_iff]
          intro x hx
          obtain ⟨c, _, hc⟩ := hmem x hx
          exact ih c x hc
      · split at h
        · exact ih _ _ h
        · exact ih _ _ h
        · cases h
        · exact singleFilterFromTokens_ok_compoundOK _ _ _ _ h
        · cases h

theorem parseTokenList_ok_compoundOK (tokens : List Token) (f : Filter)
    (h : parseTokenList tokens = .ok f) : f.compoundOK = true :=
  parseTokenListF_ok_compoundOK _ tokens f h

theorem filterByExperimentId_ok_compoundOK (ids : List Int) (f : Filter)
    (h : filterByExperimentId ids = .ok f) : f.compoundOK = true := by
  unfold filterByExperimentId at h
  split at h
  · cases h
  · rename_i hlen
    rcases hm : List.map (fun i => Filter.experimentIdFilter ComparisonOperator.equalTo i) ids
        with _ | ⟨p, _ | ⟨p2, rest⟩⟩ <;> rw [hm] at h
    · have hids : ids = [] := List.map_eq_nil_iff.mp hm
      simp [hids] at hlen
    · cases h
      have hp : f ∈ List.map (fun i => Filter.experimentIdFilter ComparisonOperator.equalTo i) ids := by
        rw [hm]; simp
      obtain ⟨i, _, rfl⟩ := List.mem_map.mp hp
      rfl
    · cases h
      simp only [compoundOK_compound, Bool.and_eq_true, decide_eq_true_eq]
      refine ⟨by simp, ?_⟩
      rw [compoundOKList_iff]
      intro x hx
      have hp : x ∈ List.map (fun i => Filter.experimentIdFilter ComparisonOperator.equalTo i) ids := by
        rw [hm]; exact hx
      obtain ⟨i, _, rfl⟩ := List.mem_map.mp hp
      rfl

theorem filterByMlflowViewType_ok_compoundOK (vt : Nat) (g : Filter)
    (h : filterByMlflowViewType vt = .ok (some g)) : g.compoundOK = true := by
  unfold filterByMlflowViewType at h
  split at h
  · cases h; rfl
  · split at h
    · cases h; rfl
    · split at h
      · cases h
      · cases h

theorem parseFilterString_ok_compoundOK (s : String) (parsed : SqlParseResult) (f : Filter)
    (h : parseFilterString s parsed = .ok f) : f.compoundOK = true := by
  unfold parseFilterString at h
  split at h
  · cases h
  · exact parseTokenList_ok_compoundOK _ _ h
  · cases h

theorem buildSearchRunsFilter_ok_compoundOK (eids : Option (List Int))
    (fs : Option String) (vt : Nat) (parsed : SqlParseResult) (f : Filter)
    (h : buildSearchRunsFilter eids fs vt parsed = .ok (some f)) :
    f.compoundOK = true := by
  unfold buildSearchRunsFilter at h
  obtain ⟨parts1, hp1, h⟩ := exceptBind_ok _ _ _ h
  have hall1 : ∀ x ∈ parts1, x.compoundOK = true := by
    rcases eids with _ | ids
    · cases hp1; simp
    · obtain ⟨f1, hf1, hp⟩ := exceptBind_ok _ _ _ hp1
      cases hp
      intro x hx
      rw [List.mem_singleton] at hx
      subst hx
      exact filterByExperimentId_ok_compoundOK _ _ hf1
  obtain ⟨od, hod, h⟩ := exceptBind_ok _ _ _ h
  have hall2 : ∀ x ∈ (match od with | none => parts1 | some g => parts1 ++ [g]),
      x.compoundOK = true := by
    cases od with
    | none => simpa using hall1
    | some g =>
      intro x hx
      rcases List.mem_append.mp hx with hx | hx
      · exact hall1 x hx
      · rw [List.mem_singleton] at hx
        subst hx
        exact filterByMlflowViewType_ok_compoundOK vt x hod
  set P2 : List Filter := (match od with | none => parts1 | some g => parts1 ++ [g])
    with hP2
  obtain ⟨parts3, hp3, h⟩ := exceptBind_ok _ _ _ h
  have hall3 : ∀ x ∈ parts3, x.compoundOK = true := by
    rcases fs with _ | s
    · change pure P2 = Except.ok parts3 at hp3
      rw [pure_eq_ok] at hp3
      injection hp3 with hp3
      subst hp3
      exact hall2
    · change (if pyStrip s ≠ "" then
          (parseFilterString s parsed) >>= fun fp => pure (P2 ++ [fp])
        else pure P2) = Except.ok parts3 at hp3
      split at hp3
      all_goals
        first
        | (rw [pure_eq_ok] at hp3
           injection hp3 with hp3
           subst hp3
           exact hall2)
        | (obtain ⟨fp, hfp, hp⟩ := exceptBind_ok _ _ _ hp3
           rw [pure_eq_ok] at hp
           injection hp with hp
           subst hp
           intro x hx
           rcases List.mem_append.mp hx with hx | hx
           · exact hall2 x hx
           · rw [List.mem_singleton] at hx
             subst hx
             exact parseFilterString_ok_compoundOK _ _ _ hfp)
  split at h
  · cases h
  · rename_i part
    cases h
    exact hall3 f (by simp)
  · rename_i h1 h2
    cases h
    rcases parts3 with _ | ⟨a, _ | ⟨b, r⟩⟩
    · exact absurd rfl h1
    · exact absurd rfl (h2 a)
    · simp only [compoundOK_compound, Bool.and_eq_true, decide_eq_true_eq]
      refine ⟨by simp, ?_⟩
      rw [compoundOKList_iff]
      exact hall3

/-- C7: every `CompoundFilter` produced by the token-list parser, the
experiment-ID filter builder, or `build_search_runs_filter` has at least two
children (recursively). -/
theorem compound_filters_have_at_least_two_children :
    (∀ tokens f, parseTokenList tokens = .ok f → f.compoundOK = true) ∧
    (∀ ids f, filterByExperimentId ids = .ok f → f.compoundOK = true) ∧
    (∀ eids fs vt parsed f, buildSearchRunsFilter eids fs vt parsed = .ok (some f) →
      f.compoundOK = true) :=
  ⟨parseTokenList_ok_compoundOK, filterByExperimentId_ok_compoundOK,
   buildSearchRunsFilter_ok_compoundOK⟩

theorem compound_filters_have_at_least_two_children_witness :
    Filter.compoundOK (.compoundFilter .land
      [.metricFilter (some "a") .defined (.boolV true),
       .metricFilter (some "b") .defined (.boolV true)]) = true :=
  compound_filters_have_at_least_two_children.1
    [Token.group .comparisonG
      [Token.group .identifierG [Token.tok .nameT "metric.a"],
       Token.tok .keyword "IS", Token.tok .keyword "NOT NULL"], andKw,
     Token.group .comparisonG
      [Token.group .identifierG [Token.tok .nameT "metric.b"],
       Token.tok .keyword "IS", Token.tok .keyword "NOT NULL"]]
    (.compoundFilter .land
      [.metricFilter (some "a") .defined (.boolV true),
       .metricFilter (some "b") .defined (.boolV true)])
    rfl

end MlflowFaculty
